import Mathlib

/-!
Shallow embedding of the `node-red-zocr` plugin core (`src/zocr.js`):
the bounded tesseract worker pool, the per-request recognition session
(config merge, rectangle options, timeout wrapper, recognize dispatch)
and the Node-RED input handler orchestration.

JS numbers that the code only ever treats as integral are modelled as
`Int`; absent values (`undefined`) as `Option`; JS objects used as
string-keyed parameter maps as functions `String → Option String`;
promise outcomes as `Except String`.
-/

namespace Zocr

/-- A byte buffer (the normalized image payload). -/
abbrev Buf := List Nat

/-- Opaque engine recognition result (text plus metadata, passed through verbatim). -/
structure RecResult where
  text : String
  deriving DecidableEq, Repr

/-- A JS parameter-object: a string-keyed map, `none` meaning the key is absent. -/
def ParamMap := String → Option String

/-- JS object spread `\x7b...a, ...b\x7d` restricted to one string-valued map:
keys of `b` override keys of `a`. -/
def spreadMap (a b : ParamMap) : ParamMap :=
  fun k => match b k with
    | some v => some v
    | none => a k

/-- A JS numeric field value as the rectangle code sees it: either an integer
(`Number.isInteger` true) or anything else (non-integer number, string,
undefined, ... — `Number.isInteger` false). -/
inductive JsNum where
  | int (n : Int)
  | other
  deriving DecidableEq, Repr

/-- A caller-supplied rectangle object `\x7b left, top, width, height \x7d`
before validation. -/
structure JsRect where
  left : JsNum
  top : JsNum
  width : JsNum
  height : JsNum
  deriving DecidableEq, Repr

/-- A validated recognition sub-rectangle (all four fields integers). -/
structure Rect4 where
  left : Int
  top : Int
  width : Int
  height : Int
  deriving DecidableEq, Repr

/-- `recognizeOptions` construction (zocr.js lines 200-215): the rectangle is
copied into the options only when `rect` is truthy and all four fields pass
`Number.isInteger`; otherwise the options stay empty (full image). -/
def buildRecognizeOptions (rect : Option JsRect) : Option Rect4 :=
  match rect with
  | none => none
  | some r =>
    match r.left, r.top, r.width, r.height with
    | .int l, .int t, .int w, .int h => some ⟨l, t, w, h⟩
    | _, _, _, _ => none

/-- The caller-supplied dynamic configuration `msg.zocr` / `msg.zocrConfig`:
each field is `some` when the caller's object carries that key. -/
structure Incoming where
  lang : Option String
  parameters : Option ParamMap
  rectangle : Option (Option JsRect)
  poolSize : Option Int
  timeoutMs : Option Int

/-- The effective per-request configuration after merging with defaults. -/
structure Config where
  lang : String
  parameters : ParamMap
  rectangle : Option JsRect
  poolSize : Int
  timeoutMs : Int

/-- The default parameter map (zocr.js lines 173-176):
digit whitelist and page-segmentation mode 6. -/
def defaultParameters : ParamMap :=
  fun k =>
    if k = "tessedit_char_whitelist" then some "0123456789"
    else if k = "tessedit_pageseg_mode" then some "6"
    else none

/-- The `defaults` object of the input handler (zocr.js lines 171-180). -/
def defaults : Config :=
  { lang := "eng"
    parameters := defaultParameters
    rectangle := none
    poolSize := 1
    timeoutMs := 30000 }

/-- The `cfg` merge (zocr.js lines 181-185): top-level spread of `incoming`
over `defaults`, with `parameters` merged key-wise by a nested spread. -/
def mergeConfig (incoming : Incoming) : Config :=
  { lang := incoming.lang.getD defaults.lang
    parameters := spreadMap defaultParameters (incoming.parameters.getD (fun _ => none))
    rectangle := incoming.rectangle.getD defaults.rectangle
    poolSize := incoming.poolSize.getD defaults.poolSize
    timeoutMs := incoming.timeoutMs.getD defaults.timeoutMs }

/-- `String(cfg.lang || "eng")` (zocr.js line 186): an empty (falsy) language
string falls back to "eng". -/
def effLang (s : String) : String := if s = "" then "eng" else s

/-- Outcome of `withTimeout` (zocr.js lines 57-69): the settled result,
whether the promise was wrapped in a race at all, and whether `clearTimeout`
ran while the timer was still pending. `elapsed` is the time at which the
wrapped promise settles; `ms` is `none` when the caller passed no usable
number (`!ms`). -/
structure TimeoutOut (α : Type) where
  result : Except String α
  wrapped : Bool
  timerCleared : Bool
  deriving Repr

/-- `withTimeout(promise, ms)` (zocr.js lines 57-69). `!ms || ms <= 0`
returns the promise unwrapped; otherwise the promise races a timer that
rejects with the timeout error after `ms` milliseconds. -/
def withTimeout {α : Type} (outcome : Except String α) (elapsed : Nat) (ms : Option Int) :
    TimeoutOut α :=
  match ms with
  | none => { result := outcome, wrapped := false, timerCleared := false }
  | some m =>
    if m ≤ 0 then { result := outcome, wrapped := false, timerCleared := false }
    else if (elapsed : Int) < m then
      { result := outcome, wrapped := true, timerCleared := true }
    else
      { result := .error ("OCR timeout after " ++ toString m ++ "ms")
        wrapped := true, timerCleared := false }

/-- Capability flags probed on a worker at creation, plus the duck-typed
checks (`typeof w.x === "function"`) the session performs later on the same
worker object. -/
structure Api where
  hasLoad : Bool
  hasLangInit : Bool
  hasSetParameters : Bool
  hasRecognize : Bool
  hasTerminate : Bool
  deriving DecidableEq, Repr

/-- One pool entry (zocr.js line 88): the worker (identified here by a
creation id), its currently-initialized language, the busy flag and the
probed capabilities. -/
structure Handle where
  id : Nat
  lang : Option String
  busy : Bool
  api : Api
  deriving DecidableEq, Repr

/-- `createOne` (zocr.js lines 77-89): a fresh worker starts with no
language and idle. -/
def createOne (id : Nat) (api : Api) : Handle :=
  { id := id, lang := none, busy := false, api := api }

/-- The pool's mutable state: the handle array and the desired-size target;
`nextId` numbers workers in creation order. -/
structure PoolState where
  pool : List Handle
  desiredSize : Nat
  nextId : Nat
  deriving DecidableEq, Repr

/-- `Number(size) || 1`: a zero (or NaN, modelled by the caller passing 1
already) size falls back to 1. -/
def jsNumOr1 (n : Int) : Int := if n = 0 then 1 else n

/-- `Math.max(1, Math.min(4, ·))` (zocr.js line 92). -/
def clamp14 (n : Int) : Nat := (max 1 (min 4 n)).toNat

/-- The grow loop of `ensureSize` (zocr.js line 93): push freshly created
workers until the pool reaches the desired size. -/
def growLoop (api : Api) (d : Nat) (pool : List Handle) (nextId : Nat) :
    List Handle × Nat :=
  if pool.length < d then
    growLoop api d (pool ++ [createOne nextId api]) (nextId + 1)
  else (pool, nextId)
termination_by d - pool.length
decreasing_by simp [List.length_append]; omega

/-- A terminate call issued during shrink: the worker id and the outcome of
`worker.terminate()` (the outcome is swallowed by the `try/catch`). -/
abbrev TermEvent := Nat × Except String Unit

/-- The shrink loop of `ensureSize` (zocr.js lines 94-99): pop handles from
the end while the pool is too large; terminate each popped worker when it
exposes `terminate`, swallowing errors. `termRes` gives the outcome of each
worker's terminate call. -/
def shrinkLoop (termRes : Nat → Except String Unit) (d : Nat)
    (pool : List Handle) (events : List TermEvent) : List Handle × List TermEvent :=
  if _h : d < pool.length then
    match pool.getLast? with
    | some item =>
      shrinkLoop termRes d pool.dropLast
        (if item.api.hasTerminate then events ++ [(item.id, termRes item.id)] else events)
    | none => (pool, events)
  else (pool, events)
termination_by pool.length
decreasing_by simp [List.length_dropLast]; omega

/-- `ensureSize(size)` (zocr.js lines 91-101): clamp the requested size to
[1,4], grow by creating workers, then shrink from the end terminating the
removed workers best-effort. Returns the new state and the terminate calls
issued. -/
def ensureSize (st : PoolState) (api : Api) (termRes : Nat → Except String Unit)
    (size : Int) : PoolState × List TermEvent :=
  let d := clamp14 (jsNumOr1 size)
  let grown := growLoop api d st.pool st.nextId
  let shrunk := shrinkLoop termRes d grown.1 []
  ({ pool := shrunk.1, desiredSize := d, nextId := grown.2 }, shrunk.2)

/-- Engine-level language events issued by `initLangIfNeeded`. -/
inductive LangEvent where
  | loadLanguage (l : String)
  | initEngine (l : String)
  deriving DecidableEq, Repr

/-- `initLangIfNeeded(item, lang)` (zocr.js lines 103-114). `loadRes` and
`initRes` are the outcomes of the engine's `loadLanguage` / `initialize`
calls when they are made. On the no-capability branch the first language
assigned sticks (`item.lang = item.lang || lang`). Returns the updated
handle (or the propagated error) and the engine calls issued. -/
def initLangIfNeeded (item : Handle) (lang : String)
    (loadRes initRes : Except String Unit) : Except String Handle × List LangEvent :=
  if item.lang = some lang then (.ok item, [])
  else if item.api.hasLangInit then
    match loadRes with
    | .error e => (.error e, [.loadLanguage lang])
    | .ok _ =>
      match initRes with
      | .error e => (.error e, [.loadLanguage lang, .initEngine lang])
      | .ok _ => (.ok { item with lang := some lang }, [.loadLanguage lang, .initEngine lang])
  else
    (.ok { item with lang := some (item.lang.getD lang) }, [])

/-- Result of one attempt to acquire a handle: the index of the acquired
handle and the updated pool, a propagated error with the updated pool, or
no idle handle found (the caller keeps waiting). -/
inductive AcquireRes where
  | ok (i : Nat) (pool : List Handle)
  | err (e : String) (pool : List Handle)
  | idleMissing (pool : List Handle)
  deriving DecidableEq, Repr

/-- The synchronous scan of `acquire` (zocr.js lines 117-124): take the
first idle handle, mark it busy, then initialize its language. An
initialization error propagates with the busy flag still set. -/
def acquire (pool : List Handle) (lang : String)
    (loadRes initRes : Except String Unit) : AcquireRes :=
  match pool with
  | [] => .idleMissing []
  | it :: rest =>
    if it.busy then
      match acquire rest lang loadRes initRes with
      | .ok i p => .ok (i + 1) (it :: p)
      | .err e p => .err e (it :: p)
      | .idleMissing p => .idleMissing (it :: p)
    else
      let it1 := { it with busy := true }
      match initLangIfNeeded it1 lang loadRes initRes with
      | (.ok it2, _) => .ok 0 (it2 :: rest)
      | (.error e, _) => .err e (it1 :: rest)

/-- One execution of the polling `check` closure of `acquire` (zocr.js
lines 127-142): same scan, but an initialization error clears the busy flag
before rejecting; `idleMissing` means the closure reschedules itself. -/
def acquireCheck (pool : List Handle) (lang : String)
    (loadRes initRes : Except String Unit) : AcquireRes :=
  match pool with
  | [] => .idleMissing []
  | it :: rest =>
    if it.busy then
      match acquireCheck rest lang loadRes initRes with
      | .ok i p => .ok (i + 1) (it :: p)
      | .err e p => .err e (it :: p)
      | .idleMissing p => .idleMissing (it :: p)
    else
      let it1 := { it with busy := true }
      match initLangIfNeeded it1 lang loadRes initRes with
      | (.ok it2, _) => .ok 0 (it2 :: rest)
      | (.error e, _) => .err e (it :: rest)

/-- `release(item)` (zocr.js line 147): clear the busy flag of the handle at
index `i`. -/
def release (pool : List Handle) (i : Nat) : List Handle :=
  match pool[i]? with
  | some it => pool.set i { it with busy := false }
  | none => pool

/-- The recognize entry point `doRecognize` selects (zocr.js lines 218-226):
the worker's own `recognize`, the module-level `tesseract.recognize`
fallback, or none. -/
inductive RecCall where
  | workerRec (buf : Buf) (opts : Option Rect4)
  | tessRec (buf : Buf) (lang : String) (params : ParamMap)
  | noApi

/-- `doRecognize` (zocr.js lines 218-226) as the call it dispatches:
prefer `item.worker.recognize(buffer, options)`; otherwise fall back to
`tesseract.recognize(buffer, lang, parameters)`; otherwise no usable API. -/
def doRecognize (item : Handle) (tessHasRecognize : Bool) (buf : Buf)
    (opts : Option Rect4) (lang : String) (params : ParamMap) : RecCall :=
  if item.api.hasRecognize then .workerRec buf opts
  else if tessHasRecognize then .tessRec buf lang params
  else .noApi

/-- The capability-error message of `doRecognize`. -/
def noApiError : String := "No available recognize API on this tesseract.js build."

/-- Which recognize entry point was used, without payloads (for the request
trace). -/
inductive RecChoice where
  | workerRec
  | tessRec
  | noApi
  deriving DecidableEq, Repr

/-- Forget the payloads of a dispatched call. -/
def RecCall.choice : RecCall → RecChoice
  | .workerRec _ _ => .workerRec
  | .tessRec _ _ _ => .tessRec
  | .noApi => .noApi

/-- Pool-affecting operations performed by one request, in order. -/
inductive PoolOp where
  | ensureSize (size : Int)
  | acquire (lang : String)
  | setParameters
  | recognize (choice : RecChoice) (opts : Option Rect4)
  | release (i : Nat)
  deriving DecidableEq, Repr

/-- Outcomes of the external collaborators for one request: the payload
normalization result, the caller's dynamic config, the probed capabilities
of freshly created workers, whether the module-level library has a
standalone `recognize`, the engine-call outcomes, and the time at which the
recognition promise settles. -/
structure Env where
  normalize : Except String Buf
  incoming : Incoming
  newApi : Api
  tessHasRecognize : Bool
  loadRes : Except String Unit
  initRes : Except String Unit
  setParamsRes : Except String Unit
  workerRecogRes : Except String RecResult
  tessRecogRes : Except String RecResult
  recogElapsed : Nat
  termRes : Nat → Except String Unit

/-- Outcome of the recognition promise built by `doRecognize` under `env`. -/
def execRecognize (env : Env) : RecCall → Except String RecResult
  | .workerRec _ _ => env.workerRecogRes
  | .tessRec _ _ _ => env.tessRecogRes
  | .noApi => .error noApiError

/-- The time at which the `doRecognize()` promise settles: a missing
recognize API rejects immediately; a real engine call settles after
`env.recogElapsed` milliseconds. -/
def recogSettleTime (env : Env) : RecCall → Nat
  | .noApi => 0
  | _ => env.recogElapsed

/-- Result of one `input` event: success, a caught error handed to `done`,
or a request still parked in the acquire polling loop (no idle handle).
Carries the final pool state and the pool operations performed. -/
inductive HandlerOut where
  | ok (r : RecResult) (st : PoolState) (ops : List PoolOp)
  | err (e : String) (st : PoolState) (ops : List PoolOp)
  | blocked (st : PoolState) (ops : List PoolOp)
  deriving DecidableEq, Repr

/-- The tail of the input handler after a handle was acquired (zocr.js
lines 195-234): optional `setParameters`, rectangle options, recognition
under `withTimeout`; on success `release` then done, on failure the catch
block propagates the error without releasing. -/
def afterAcquire (env : Env) (cfg : Config) (lang : String) (buf : Buf)
    (st : PoolState) (i : Nat) (ops : List PoolOp) : HandlerOut :=
  let it := st.pool[i]?.getD (createOne 0 env.newApi)
  let step : Except String Unit × List PoolOp :=
    if it.api.hasSetParameters then
      (env.setParamsRes, ops ++ [.setParameters])
    else (.ok (), ops)
  match step with
  | (.error e, ops1) => .err e st ops1
  | (.ok _, ops1) =>
    let opts := buildRecognizeOptions cfg.rectangle
    let call := doRecognize it env.tessHasRecognize buf opts lang cfg.parameters
    let timed := withTimeout (execRecognize env call) (recogSettleTime env call)
      (some cfg.timeoutMs)
    let ops2 := ops1 ++ [.recognize call.choice opts]
    match timed.result with
    | .error e => .err e st ops2
    | .ok r =>
      .ok r { st with pool := release st.pool i } (ops2 ++ [.release i])

/-- The body of the input handler after normalization succeeded (zocr.js
lines 186-234): resize the pool to the configured size, acquire a handle for
the effective language, then run `afterAcquire`. -/
def runSession (env : Env) (cfg : Config) (buf : Buf) (st : PoolState) : HandlerOut :=
  let lang := effLang cfg.lang
  let resized := ensureSize st env.newApi env.termRes cfg.poolSize
  let st1 := resized.1
  let ops0 : List PoolOp := [.ensureSize cfg.poolSize]
  match acquire st1.pool lang env.loadRes env.initRes with
  | .idleMissing p => .blocked { st1 with pool := p } ops0
  | .err e p => .err e { st1 with pool := p } (ops0 ++ [.acquire lang])
  | .ok i p =>
    afterAcquire env cfg lang buf { st1 with pool := p } i (ops0 ++ [.acquire lang])

/-- The `input` handler (zocr.js lines 165-240): normalize the payload,
merge the configuration, then run the session. Every thrown error lands in
the catch block and is handed to `done` unchanged. -/
def onInput (env : Env) (st : PoolState) : HandlerOut :=
  match env.normalize with
  | .error e => .err e st []
  | .ok buf => runSession env (mergeConfig env.incoming) buf st

/-!
Cooperative-interleaving model of concurrent `acquire` calls (zocr.js lines
116-147). Execution is single-threaded: a caller runs without preemption
from the start of the synchronous idle-scan up to and including setting the
busy flag, and can only be interleaved at `await` points (the language
initialization) and timer callbacks. One state per caller records where in
`acquire` it is suspended; the shared pool is reduced to its busy flags.
-/

/-- Where one caller of `acquire(lang)` currently stands. -/
inductive CState where
  | scanning
  | initing (i : Nat)
  | waiting
  | initingW (i : Nat)
  | holding (i : Nat)
  | failed
  | done
  deriving DecidableEq, Repr

/-- The shared system state: the pool's busy flags and every caller's
position. -/
structure Sys where
  busy : List Bool
  callers : List CState
  deriving DecidableEq, Repr

/-- The synchronous idle scan `for (const it of pool) if (!it.busy)`:
index of the first idle handle. -/
def findIdle : List Bool → Option Nat
  | [] => none
  | b :: rest => if b then (findIdle rest).map (· + 1) else some 0

/-- The handle index a caller currently holds exclusively: set from the
moment `acquire` flips the busy flag until the handle is given up. -/
def holdsIdx : CState → Option Nat
  | .initing i => some i
  | .initingW i => some i
  | .holding i => some i
  | _ => none

/-- One interleaving step of the system: some caller resumes at its
suspension point and runs until it suspends again or finishes.
- `scanFound`/`scanMissed`: the synchronous scan of `acquire` — marking a
  found handle busy happens in the same step as the scan (no `await`
  between them in the source).
- `initOk`/`initFail`: the fast-path `initLangIfNeeded` settles; on failure
  the error propagates with the busy flag left set (no catch in the fast
  path).
- `waitFound`: one `check` poll finds an idle handle and marks it busy.
- `initWOk`/`initWFail`: the polling-path `initLangIfNeeded` settles; its
  catch clears the busy flag before rejecting.
- `releaseStep`: the holder calls `release`, clearing the busy flag. -/
inductive Step : Sys → Sys → Prop where
  | scanFound (s : Sys) (c i : Nat) :
      s.callers[c]? = some .scanning → findIdle s.busy = some i →
      Step s ⟨s.busy.set i true, s.callers.set c (.initing i)⟩
  | scanMissed (s : Sys) (c : Nat) :
      s.callers[c]? = some .scanning → findIdle s.busy = none →
      Step s ⟨s.busy, s.callers.set c .waiting⟩
  | initOk (s : Sys) (c i : Nat) :
      s.callers[c]? = some (.initing i) →
      Step s ⟨s.busy, s.callers.set c (.holding i)⟩
  | initFail (s : Sys) (c i : Nat) :
      s.callers[c]? = some (.initing i) →
      Step s ⟨s.busy, s.callers.set c .failed⟩
  | waitFound (s : Sys) (c i : Nat) :
      s.callers[c]? = some .waiting → findIdle s.busy = some i →
      Step s ⟨s.busy.set i true, s.callers.set c (.initingW i)⟩
  | initWOk (s : Sys) (c i : Nat) :
      s.callers[c]? = some (.initingW i) →
      Step s ⟨s.busy, s.callers.set c (.holding i)⟩
  | initWFail (s : Sys) (c i : Nat) :
      s.callers[c]? = some (.initingW i) →
      Step s ⟨s.busy.set i false, s.callers.set c .failed⟩
  | releaseStep (s : Sys) (c i : Nat) :
      s.callers[c]? = some (.holding i) →
      Step s ⟨s.busy.set i false, s.callers.set c .done⟩

/-- Reachability under interleaving. -/
def Reach : Sys → Sys → Prop := Relation.ReflTransGen Step

/-- A system start state: `nH` idle handles, `nC` callers all about to run
`acquire`. -/
def initSys (nH nC : Nat) : Sys :=
  ⟨List.replicate nH false, List.replicate nC CState.scanning⟩

/-- The safety invariant: every held handle index is marked busy, and no
two distinct callers hold the same handle index. -/
structure SysInv (s : Sys) : Prop where
  heldBusy : ∀ (c : Nat) (cs : CState) (i : Nat),
    s.callers[c]? = some cs → holdsIdx cs = some i → s.busy[i]? = some true
  excl : ∀ (c d : Nat) (csc csd : CState) (i : Nat), c ≠ d →
    s.callers[c]? = some csc → s.callers[d]? = some csd →
    holdsIdx csc = some i → holdsIdx csd = some i → False

/-- Concrete fixture: a tesseract build exposing every probed operation. -/
def fullApi : Api :=
  { hasLoad := true, hasLangInit := true, hasSetParameters := true,
    hasRecognize := true, hasTerminate := true }

/-- Concrete fixture: a build without `loadLanguage`/`initialize` (no
language switching). -/
def fixedLangApi : Api :=
  { hasLoad := false, hasLangInit := false, hasSetParameters := true,
    hasRecognize := true, hasTerminate := true }

/-- Concrete fixture: a caller message carrying no dynamic config keys. -/
def emptyIncoming : Incoming :=
  { lang := none, parameters := none, rectangle := none,
    poolSize := none, timeoutMs := none }

/-- Concrete fixture: a caller parameter object overriding one default key. -/
def sampleParams : ParamMap :=
  fun k => if k = "tessedit_char_whitelist" then some "0123456789X" else none

/-- Concrete fixture: a caller config overriding language, one parameter and
the pool size. -/
def sampleIncoming : Incoming :=
  { lang := some "chi_sim", parameters := some sampleParams, rectangle := none,
    poolSize := some 2, timeoutMs := none }

/-- Concrete fixture: a busy handle initialized for English. -/
def hBusyEng : Handle := { id := 0, lang := some "eng", busy := true, api := fullApi }

/-- Concrete fixture: an idle handle initialized for English. -/
def hIdleEng : Handle := { id := 0, lang := some "eng", busy := false, api := fullApi }

/-- Concrete fixture: an idle fresh handle with no language yet. -/
def hIdleNew : Handle := { id := 1, lang := none, busy := false, api := fullApi }

/-- Concrete fixture: a handle on a build without language switching,
stuck on English. -/
def hFixedEng : Handle := { id := 1, lang := some "eng", busy := true, api := fixedLangApi }

/-- Concrete fixture: an environment where every external call succeeds. -/
def okEnv : Env :=
  { normalize := .ok [1]
    incoming := emptyIncoming
    newApi := fullApi
    tessHasRecognize := true
    loadRes := .ok (), initRes := .ok (), setParamsRes := .ok ()
    workerRecogRes := .ok { text := "42" }, tessRecogRes := .ok { text := "42" }
    recogElapsed := 1, termRes := fun _ => .ok () }

/-- A successful idle scan returns the index of an idle handle. -/
theorem findIdle_spec (l : List Bool) (i : Nat) (h : findIdle l = some i) :
    l[i]? = some false := by
  induction l generalizing i with
  | nil => exact absurd h (by simp [findIdle])
  | cons b rest ih =>
    cases b with
    | false =>
      simp only [findIdle] at h
      rw [if_neg (by simp)] at h
      cases h
      simp
    | true =>
      simp only [findIdle] at h
      rw [if_pos trivial] at h
      cases hrest : findIdle rest with
      | none => rw [hrest] at h; exact absurd h (by simp)
      | some j =>
        rw [hrest] at h
        have hij : i = j + 1 := by
          cases h
          rfl
        subst hij
        simpa using ih j hrest

/-- Index bound extracted from a successful lookup. -/
theorem lt_of_getElem?_some {α : Type} {l : List α} {i : Nat} {a : α}
    (h : l[i]? = some a) : i < l.length :=
  (List.getElem?_eq_some.mp h).choose

/-- Invariant preservation: a caller moves to a state holding no handle,
busy flags unchanged. -/
theorem inv_set_nohold {s : Sys} (hinv : SysInv s) (c : Nat) (stNew : CState)
    (hnew : holdsIdx stNew = none) : SysInv ⟨s.busy, s.callers.set c stNew⟩ := by
  constructor
  · intro c1 cs i hc1 hi
    by_cases hcc : c = c1
    · subst hcc
      rcases lt_or_ge c s.callers.length with hlt | hge
      · rw [List.getElem?_set_eq_of_lt _ hlt] at hc1
        cases hc1
        rw [hnew] at hi
        exact absurd hi (by simp)
      · rw [List.getElem?_eq_none (by simpa using hge)] at hc1
        exact absurd hc1 (by simp)
    · rw [List.getElem?_set_ne hcc] at hc1
      exact hinv.heldBusy c1 cs i hc1 hi
  · intro c1 d1 csc csd i hne hc1 hd1 hic hid
    by_cases hcc : c = c1
    · subst hcc
      rcases lt_or_ge c s.callers.length with hlt | hge
      · rw [List.getElem?_set_eq_of_lt _ hlt] at hc1
        cases hc1
        rw [hnew] at hic
        exact absurd hic (by simp)
      · rw [List.getElem?_eq_none (by simpa using hge)] at hc1
        exact absurd hc1 (by simp)
    · by_cases hcd : c = d1
      · subst hcd
        rcases lt_or_ge c s.callers.length with hlt | hge
        · rw [List.getElem?_set_eq_of_lt _ hlt] at hd1
          cases hd1
          rw [hnew] at hid
          exact absurd hid (by simp)
        · rw [List.getElem?_eq_none (by simpa using hge)] at hd1
          exact absurd hd1 (by simp)
      · rw [List.getElem?_set_ne hcc] at hc1
        rw [List.getElem?_set_ne hcd] at hd1
        exact hinv.excl c1 d1 csc csd i hne hc1 hd1 hic hid

/-- Invariant preservation: a caller holding `i` moves to another state
still holding `i`, busy flags unchanged. -/
theorem inv_set_samehold {s : Sys} (hinv : SysInv s) (c i : Nat) (st0 stNew : CState)
    (hc : s.callers[c]? = some st0) (h0 : holdsIdx st0 = some i)
    (hnew : holdsIdx stNew = some i) : SysInv ⟨s.busy, s.callers.set c stNew⟩ := by
  have hclt : c < s.callers.length := lt_of_getElem?_some hc
  constructor
  · intro c1 cs j hc1 hj
    by_cases hcc : c = c1
    · subst hcc
      rw [List.getElem?_set_eq_of_lt _ hclt] at hc1
      cases hc1
      rw [hnew] at hj
      cases hj
      exact hinv.heldBusy c st0 i hc h0
    · rw [List.getElem?_set_ne hcc] at hc1
      exact hinv.heldBusy c1 cs j hc1 hj
  · intro c1 d1 csc csd j hne hc1 hd1 hic hid
    by_cases hcc : c = c1
    · subst hcc
      rw [List.getElem?_set_eq_of_lt _ hclt] at hc1
      cases hc1
      rw [hnew] at hic
      cases hic
      by_cases hcd : c = d1
      · exact hne hcd
      · rw [List.getElem?_set_ne hcd] at hd1
        exact hinv.excl c d1 st0 csd i hne hc hd1 h0 hid
    · by_cases hcd : c = d1
      · subst hcd
        rw [List.getElem?_set_eq_of_lt _ hclt] at hd1
        cases hd1
        rw [hnew] at hid
        cases hid
        rw [List.getElem?_set_ne hcc] at hc1
        exact hinv.excl c1 c csc st0 i hne hc1 hc hic h0
      · rw [List.getElem?_set_ne hcc] at hc1
        rw [List.getElem?_set_ne hcd] at hd1
        exact hinv.excl c1 d1 csc csd j hne hc1 hd1 hic hid

/-- Invariant preservation for the acquisition steps: the scan found handle
`i` idle, the caller atomically marks it busy and now holds it. -/
theorem inv_acquire {s : Sys} (hinv : SysInv s) (c i : Nat) (st0 stNew : CState)
    (hc : s.callers[c]? = some st0)
    (hidle : s.busy[i]? = some false) (hnew : holdsIdx stNew = some i) :
    SysInv ⟨s.busy.set i true, s.callers.set c stNew⟩ := by
  have hclt : c < s.callers.length := lt_of_getElem?_some hc
  have hilt : i < s.busy.length := lt_of_getElem?_some hidle
  have hnoholder : ∀ (d : Nat) (csd : CState),
      s.callers[d]? = some csd → holdsIdx csd = some i → False := by
    intro d csd hd hid
    have := hinv.heldBusy d csd i hd hid
    rw [hidle] at this
    exact absurd this (by simp)
  constructor
  · intro c1 cs j hc1 hj
    by_cases hcc : c = c1
    · subst hcc
      rw [List.getElem?_set_eq_of_lt _ hclt] at hc1
      cases hc1
      rw [hnew] at hj
      cases hj
      rw [List.getElem?_set_eq_of_lt _ hilt]
    · rw [List.getElem?_set_ne hcc] at hc1
      have hold := hinv.heldBusy c1 cs j hc1 hj
      by_cases hij : i = j
      · subst hij
        rw [List.getElem?_set_eq_of_lt _ hilt]
      · rw [List.getElem?_set_ne hij]
        exact hold
  · intro c1 d1 csc csd j hne hc1 hd1 hic hid
    by_cases hcc : c = c1
    · subst hcc
      rw [List.getElem?_set_eq_of_lt _ hclt] at hc1
      cases hc1
      rw [hnew] at hic
      cases hic
      by_cases hcd : c = d1
      · exact hne hcd
      · rw [List.getElem?_set_ne hcd] at hd1
        exact hnoholder d1 csd hd1 hid
    · by_cases hcd : c = d1
      · subst hcd
        rw [List.getElem?_set_eq_of_lt _ hclt] at hd1
        cases hd1
        rw [hnew] at hid
        cases hid
        rw [List.getElem?_set_ne hcc] at hc1
        exact hnoholder c1 csc hc1 hic
      · rw [List.getElem?_set_ne hcc] at hc1
        rw [List.getElem?_set_ne hcd] at hd1
        exact hinv.excl c1 d1 csc csd j hne hc1 hd1 hic hid

/-- Invariant preservation for the release-like steps: the caller holding
`i` gives it up (release, or the polling-path init failure) and the busy
flag is cleared. -/
theorem inv_release {s : Sys} (hinv : SysInv s) (c i : Nat) (st0 stNew : CState)
    (hc : s.callers[c]? = some st0) (h0 : holdsIdx st0 = some i)
    (hnew : holdsIdx stNew = none) :
    SysInv ⟨s.busy.set i false, s.callers.set c stNew⟩ := by
  have hclt : c < s.callers.length := lt_of_getElem?_some hc
  constructor
  · intro c1 cs j hc1 hj
    by_cases hcc : c = c1
    · subst hcc
      rw [List.getElem?_set_eq_of_lt _ hclt] at hc1
      cases hc1
      rw [hnew] at hj
      exact absurd hj (by simp)
    · rw [List.getElem?_set_ne hcc] at hc1
      have hold := hinv.heldBusy c1 cs j hc1 hj
      by_cases hij : i = j
      · subst hij
        exact (hinv.excl c c1 st0 cs i hcc hc hc1 h0 hj).elim
      · rw [List.getElem?_set_ne hij]
        exact hold
  · intro c1 d1 csc csd j hne hc1 hd1 hic hid
    by_cases hcc : c = c1
    · subst hcc
      rw [List.getElem?_set_eq_of_lt _ hclt] at hc1
      cases hc1
      rw [hnew] at hic
      exact absurd hic (by simp)
    · by_cases hcd : c = d1
      · subst hcd
        rw [List.getElem?_set_eq_of_lt _ hclt] at hd1
        cases hd1
        rw [hnew] at hid
        exact absurd hid (by simp)
      · rw [List.getElem?_set_ne hcc] at hc1
        rw [List.getElem?_set_ne hcd] at hd1
        exact hinv.excl c1 d1 csc csd j hne hc1 hd1 hic hid

/-- The safety invariant is preserved by every interleaving step. -/
theorem inv_step {s s' : Sys} (hinv : SysInv s) (hstep : Step s s') : SysInv s' := by
  cases hstep with
  | scanFound c i hc hidle =>
    exact inv_acquire hinv c i _ _ hc (findIdle_spec _ _ hidle) rfl
  | scanMissed c hc hidle =>
    exact inv_set_nohold hinv c _ rfl
  | initOk c i hc =>
    exact inv_set_samehold hinv c i _ _ hc rfl rfl
  | initFail c i hc =>
    exact inv_set_nohold hinv c _ rfl
  | waitFound c i hc hidle =>
    exact inv_acquire hinv c i _ _ hc (findIdle_spec _ _ hidle) rfl
  | initWOk c i hc =>
    exact inv_set_samehold hinv c i _ _ hc rfl rfl
  | initWFail c i hc =>
    exact inv_release hinv c i _ _ hc rfl rfl
  | releaseStep c i hc =>
    exact inv_release hinv c i _ _ hc rfl rfl

/-- The start state satisfies the invariant: nobody holds anything. -/
theorem inv_init (nH nC : Nat) : SysInv (initSys nH nC) := by
  have hscan : ∀ (c : Nat) (cs : CState),
      (initSys nH nC).callers[c]? = some cs → cs = CState.scanning := by
    intro c cs hc
    simp only [initSys, List.getElem?_replicate] at hc
    split at hc
    · exact (Option.some.inj hc).symm
    · exact absurd hc (by simp)
  constructor
  · intro c cs i hc hi
    rw [hscan c cs hc] at hi
    exact absurd hi (by simp [holdsIdx])
  · intro c d csc csd i hne hc hd hic hid
    rw [hscan c csc hc] at hic
    exact absurd hic (by simp [holdsIdx])

/-- Every state reachable from an invariant state satisfies the invariant. -/
theorem inv_reach {s0 s : Sys} (h0 : SysInv s0) (hr : Reach s0 s) : SysInv s := by
  induction hr with
  | refl => exact h0
  | tail _ hstep ih => exact inv_step ih hstep

/-- `afterAcquire` only sees the rectangle through `buildRecognizeOptions`,
and is otherwise determined by the parameters and timeout fields. -/
theorem afterAcquire_congr (env : Env) (cfg1 cfg2 : Config) (lang : String)
    (buf : Buf) (st : PoolState) (i : Nat) (ops : List PoolOp)
    (hp : cfg1.parameters = cfg2.parameters) (ht : cfg1.timeoutMs = cfg2.timeoutMs)
    (hr : buildRecognizeOptions cfg1.rectangle = buildRecognizeOptions cfg2.rectangle) :
    afterAcquire env cfg1 lang buf st i ops = afterAcquire env cfg2 lang buf st i ops := by
  unfold afterAcquire
  rw [hp, ht, hr]

/-- C5: a request whose payload normalization fails propagates that failure
with no pool operation performed and the pool state unchanged: no resize,
no acquire, no handle touched. -/
theorem normalize_failure_aborts_before_pool (env : Env) (st : PoolState) (e : String)
    (h : env.normalize = .error e) : onInput env st = .err e st [] := by
  unfold onInput
  rw [h]

/-- Witness for C5 at a concrete failing normalization. -/
theorem normalize_failure_aborts_before_pool_witness :
    onInput
      { normalize := .error "Unsupported payload type."
        incoming := { lang := none, parameters := none, rectangle := none,
                      poolSize := none, timeoutMs := none }
        newApi := { hasLoad := true, hasLangInit := true, hasSetParameters := true,
                    hasRecognize := true, hasTerminate := true }
        tessHasRecognize := true
        loadRes := .ok (), initRes := .ok (), setParamsRes := .ok ()
        workerRecogRes := .ok { text := "7" }, tessRecogRes := .ok { text := "7" }
        recogElapsed := 0, termRes := fun _ => .ok () }
      { pool := [], desiredSize := 1, nextId := 0 }
    = .err "Unsupported payload type." { pool := [], desiredSize := 1, nextId := 0 } [] :=
  normalize_failure_aborts_before_pool _ _ "Unsupported payload type." rfl

/-- C6: the recognize dispatch prefers the worker's own `recognize` with the
buffer and built options; otherwise it falls back to the module-level
`tesseract.recognize` with buffer, language and parameters; with neither, the
request fails with the capability error. -/
theorem doRecognize_dispatch (item : Handle) (tessHasRecognize : Bool) (buf : Buf)
    (opts : Option Rect4) (lang : String) (params : ParamMap) (env : Env) :
    (item.api.hasRecognize = true →
      doRecognize item tessHasRecognize buf opts lang params = .workerRec buf opts)
    ∧ (item.api.hasRecognize = false → tessHasRecognize = true →
      doRecognize item tessHasRecognize buf opts lang params = .tessRec buf lang params)
    ∧ (item.api.hasRecognize = false → tessHasRecognize = false →
      doRecognize item tessHasRecognize buf opts lang params = .noApi
      ∧ execRecognize env (doRecognize item tessHasRecognize buf opts lang params) =
          .error noApiError) := by
  refine ⟨fun h1 => ?_, fun h1 h2 => ?_, fun h1 h2 => ?_⟩
  · simp [doRecognize, h1]
  · simp [doRecognize, h1, h2]
  · simp [doRecognize, execRecognize, h1, h2]

/-- Witness for C6 on concrete capability combinations. -/
theorem doRecognize_dispatch_witness :
    (doRecognize { id := 0, lang := none, busy := true,
                   api := { hasLoad := true, hasLangInit := true, hasSetParameters := true,
                            hasRecognize := true, hasTerminate := true } }
        false [1] none "eng" defaultParameters = .workerRec [1] none)
    ∧ (doRecognize { id := 0, lang := none, busy := true,
                     api := { hasLoad := true, hasLangInit := true, hasSetParameters := true,
                              hasRecognize := false, hasTerminate := true } }
        true [1] none "eng" defaultParameters = .tessRec [1] "eng" defaultParameters)
    ∧ (doRecognize { id := 0, lang := none, busy := true,
                     api := { hasLoad := true, hasLangInit := true, hasSetParameters := true,
                              hasRecognize := false, hasTerminate := true } }
        false [1] none "eng" defaultParameters = .noApi) := by
  refine ⟨?_, ?_, ?_⟩
  · exact (doRecognize_dispatch _ false [1] none "eng" defaultParameters
      { normalize := .ok [1]
        incoming := { lang := none, parameters := none, rectangle := none,
                      poolSize := none, timeoutMs := none }
        newApi := { hasLoad := true, hasLangInit := true, hasSetParameters := true,
                    hasRecognize := true, hasTerminate := true }
        tessHasRecognize := false
        loadRes := .ok (), initRes := .ok (), setParamsRes := .ok ()
        workerRecogRes := .ok { text := "" }, tessRecogRes := .ok { text := "" }
        recogElapsed := 0, termRes := fun _ => .ok () }).1 rfl
  · exact (doRecognize_dispatch _ true [1] none "eng" defaultParameters
      { normalize := .ok [1]
        incoming := { lang := none, parameters := none, rectangle := none,
                      poolSize := none, timeoutMs := none }
        newApi := { hasLoad := true, hasLangInit := true, hasSetParameters := true,
                    hasRecognize := true, hasTerminate := true }
        tessHasRecognize := true
        loadRes := .ok (), initRes := .ok (), setParamsRes := .ok ()
        workerRecogRes := .ok { text := "" }, tessRecogRes := .ok { text := "" }
        recogElapsed := 0, termRes := fun _ => .ok () }).2.1 rfl rfl
  · exact ((doRecognize_dispatch _ false [1] none "eng" defaultParameters
      { normalize := .ok [1]
        incoming := { lang := none, parameters := none, rectangle := none,
                      poolSize := none, timeoutMs := none }
        newApi := { hasLoad := true, hasLangInit := true, hasSetParameters := true,
                    hasRecognize := true, hasTerminate := true }
        tessHasRecognize := false
        loadRes := .ok (), initRes := .ok (), setParamsRes := .ok ()
        workerRecogRes := .ok { text := "" }, tessRecogRes := .ok { text := "" }
        recogElapsed := 0, termRes := fun _ => .ok () }).2.2 rfl rfl).1

/-- The session only sees the configured rectangle through
`buildRecognizeOptions`. -/
theorem runSession_congr (env : Env) (cfg1 cfg2 : Config) (buf : Buf) (st : PoolState)
    (hl : cfg1.lang = cfg2.lang) (hp : cfg1.parameters = cfg2.parameters)
    (hps : cfg1.poolSize = cfg2.poolSize) (ht : cfg1.timeoutMs = cfg2.timeoutMs)
    (hr : buildRecognizeOptions cfg1.rectangle = buildRecognizeOptions cfg2.rectangle) :
    runSession env cfg1 buf st = runSession env cfg2 buf st := by
  unfold runSession
  rw [hl, hps]
  dsimp only
  cases acquire ((ensureSize st env.newApi env.termRes cfg2.poolSize).1.pool)
      (effLang cfg2.lang) env.loadRes env.initRes with
  | ok i p => exact afterAcquire_congr env cfg1 cfg2 _ _ _ _ _ hp ht hr
  | err e p => rfl
  | idleMissing p => rfl

/-- C7: the recognize options carry a sub-rectangle exactly when the
rectangle is present with all four fields integral; a malformed rectangle is
silently ignored — the session behaves exactly as if no rectangle had been
configured (full image, no error). -/
theorem rectangle_validation (rect : Option JsRect) :
    (∀ l t w h : Int, buildRecognizeOptions rect = some ⟨l, t, w, h⟩ ↔
      rect = some ⟨.int l, .int t, .int w, .int h⟩)
    ∧ (∀ (env : Env) (cfg : Config) (buf : Buf) (st : PoolState) (r : JsRect),
      buildRecognizeOptions (some r) = none →
      runSession env { cfg with rectangle := some r } buf st =
      runSession env { cfg with rectangle := none } buf st) := by
  constructor
  · intro l t w h
    cases rect with
    | none => simp [buildRecognizeOptions]
    | some r =>
      rcases r with ⟨fl, ft, fw, fh⟩
      cases fl <;> cases ft <;> cases fw <;> cases fh <;>
        simp [buildRecognizeOptions]
  · intro env cfg buf st r hmal
    exact runSession_congr env _ _ buf st rfl rfl rfl rfl
      (by simpa [buildRecognizeOptions] using hmal)

/-- Witness for C7 at a malformed rectangle (non-integer width). -/
theorem rectangle_validation_witness :
    (buildRecognizeOptions (some ⟨.int 1, .int 2, .int 3, .int 4⟩) = some ⟨1, 2, 3, 4⟩)
    ∧ (runSession
        { normalize := .ok [1]
          incoming := { lang := none, parameters := none, rectangle := none,
                        poolSize := none, timeoutMs := none }
          newApi := { hasLoad := true, hasLangInit := true, hasSetParameters := true,
                      hasRecognize := true, hasTerminate := true }
          tessHasRecognize := true
          loadRes := .ok (), initRes := .ok (), setParamsRes := .ok ()
          workerRecogRes := .ok { text := "42" }, tessRecogRes := .ok { text := "42" }
          recogElapsed := 1, termRes := fun _ => .ok () }
        { defaults with rectangle := some ⟨.int 0, .int 0, .other, .int 9⟩ }
        [1] { pool := [], desiredSize := 1, nextId := 0 } =
      runSession
        { normalize := .ok [1]
          incoming := { lang := none, parameters := none, rectangle := none,
                        poolSize := none, timeoutMs := none }
          newApi := { hasLoad := true, hasLangInit := true, hasSetParameters := true,
                      hasRecognize := true, hasTerminate := true }
          tessHasRecognize := true
          loadRes := .ok (), initRes := .ok (), setParamsRes := .ok ()
          workerRecogRes := .ok { text := "42" }, tessRecogRes := .ok { text := "42" }
          recogElapsed := 1, termRes := fun _ => .ok () }
        { defaults with rectangle := none }
        [1] { pool := [], desiredSize := 1, nextId := 0 }) := by
  constructor
  · exact (rectangle_validation (some ⟨.int 1, .int 2, .int 3, .int 4⟩)).1 1 2 3 4
      |>.mpr rfl
  · exact (rectangle_validation none).2
      { normalize := .ok [1]
        incoming := { lang := none, parameters := none, rectangle := none,
                      poolSize := none, timeoutMs := none }
        newApi := { hasLoad := true, hasLangInit := true, hasSetParameters := true,
                    hasRecognize := true, hasTerminate := true }
        tessHasRecognize := true
        loadRes := .ok (), initRes := .ok (), setParamsRes := .ok ()
        workerRecogRes := .ok { text := "42" }, tessRecogRes := .ok { text := "42" }
        recogElapsed := 1, termRes := fun _ => .ok () }
      defaults [1] { pool := [], desiredSize := 1, nextId := 0 }
      ⟨.int 0, .int 0, .other, .int 9⟩ rfl

/-- C9: a missing, zero or negative timeout returns the recognition promise
unwrapped (no race, no timer); with a positive timeout, completion before
expiry yields the result and clears the pending timer, and expiry first
yields the timeout error. -/
theorem withTimeout_spec {α : Type} (outcome : Except String α) (elapsed : Nat)
    (ms : Option Int) :
    ((ms = none ∨ ∃ m, ms = some m ∧ m ≤ 0) →
      withTimeout outcome elapsed ms =
        { result := outcome, wrapped := false, timerCleared := false })
    ∧ (∀ m : Int, ms = some m → 0 < m → (elapsed : Int) < m →
      (withTimeout outcome elapsed ms).result = outcome
      ∧ (withTimeout outcome elapsed ms).timerCleared = true)
    ∧ (∀ m : Int, ms = some m → 0 < m → m ≤ (elapsed : Int) →
      (withTimeout outcome elapsed ms).result =
        .error ("OCR timeout after " ++ toString m ++ "ms")) := by
  refine ⟨fun h => ?_, fun m hm hpos hlt => ?_, fun m hm hpos hle => ?_⟩
  · rcases h with h | ⟨m, hm, hle⟩
    · rw [h]
      rfl
    · rw [hm]
      simp [withTimeout, hle]
  · rw [hm]
    simp [withTimeout, hlt, not_le.mpr hpos]
  · rw [hm]
    simp [withTimeout, not_lt.mpr hle, not_le.mpr hpos]

/-- Witness for C9 at concrete timeouts. -/
theorem withTimeout_spec_witness :
    (withTimeout (Except.ok (42 : Nat)) 5 none =
      { result := Except.ok 42, wrapped := false, timerCleared := false })
    ∧ (withTimeout (Except.ok (42 : Nat)) 5 (some 0) =
      { result := Except.ok 42, wrapped := false, timerCleared := false })
    ∧ ((withTimeout (Except.ok (42 : Nat)) 5 (some 10)).result = Except.ok 42
      ∧ (withTimeout (Except.ok (42 : Nat)) 5 (some 10)).timerCleared = true)
    ∧ (withTimeout (Except.ok (42 : Nat)) 20 (some 10)).result =
        .error ("OCR timeout after " ++ toString (10 : Int) ++ "ms") := by
  refine ⟨?_, ?_, ?_, ?_⟩
  · exact (withTimeout_spec (Except.ok 42) 5 none).1 (Or.inl rfl)
  · exact (withTimeout_spec (Except.ok 42) 5 (some 0)).1 (Or.inr ⟨0, rfl, by decide⟩)
  · exact (withTimeout_spec (Except.ok 42) 5 (some 10)).2.1 10 rfl (by decide) (by decide)
  · exact (withTimeout_spec (Except.ok 42) 20 (some 10)).2.2 10 rfl (by decide) (by decide)

/-- C8: the effective configuration is the documented defaults overridden by
the caller's top-level keys; the parameter map is merged per-key (a caller
parameter overrides only its own key, omitted default keys survive), and an
empty caller config yields exactly the defaults. -/
theorem mergeConfig_spec (inc : Incoming) :
    ((mergeConfig inc).lang = inc.lang.getD "eng"
      ∧ (mergeConfig inc).rectangle = inc.rectangle.getD none
      ∧ (mergeConfig inc).poolSize = inc.poolSize.getD 1
      ∧ (mergeConfig inc).timeoutMs = inc.timeoutMs.getD 30000)
    ∧ (∀ (p : ParamMap) (k v : String), inc.parameters = some p → p k = some v →
        (mergeConfig inc).parameters k = some v)
    ∧ (∀ (p : ParamMap) (k : String), inc.parameters = some p → p k = none →
        (mergeConfig inc).parameters k = defaultParameters k)
    ∧ (inc.parameters = none → ∀ k, (mergeConfig inc).parameters k = defaultParameters k)
    ∧ mergeConfig { lang := none, parameters := none, rectangle := none,
                    poolSize := none, timeoutMs := none } = defaults := by
  refine ⟨⟨rfl, rfl, rfl, rfl⟩, ?_, ?_, ?_, rfl⟩
  · intro p k v hp hk
    simp [mergeConfig, spreadMap, hp, hk]
  · intro p k hp hk
    simp [mergeConfig, spreadMap, hp, hk]
  · intro hp k
    simp [mergeConfig, spreadMap, hp]

/-- Witness for C8 at a concrete caller configuration overriding the
language, the pool size and one parameter key. -/
theorem mergeConfig_spec_witness :
    ((mergeConfig sampleIncoming).lang = "chi_sim")
    ∧ ((mergeConfig sampleIncoming).parameters "tessedit_char_whitelist" =
        some "0123456789X")
    ∧ ((mergeConfig sampleIncoming).parameters "tessedit_pageseg_mode" = some "6")
    ∧ ((mergeConfig sampleIncoming).poolSize = 2)
    ∧ ((mergeConfig sampleIncoming).timeoutMs = 30000) := by
  refine ⟨?_, ?_, ?_, ?_, ?_⟩
  · exact (mergeConfig_spec sampleIncoming).1.1
  · exact (mergeConfig_spec sampleIncoming).2.1 sampleParams
      "tessedit_char_whitelist" "0123456789X" rfl rfl
  · have h := (mergeConfig_spec sampleIncoming).2.2.1 sampleParams
      "tessedit_pageseg_mode" rfl (by simp [sampleParams])
    simpa [defaultParameters] using h
  · exact (mergeConfig_spec sampleIncoming).1.2.2.1
  · exact (mergeConfig_spec sampleIncoming).1.2.2.2

/-- C4: the handle language policy — an already-matching recorded language
skips reinitialization entirely; a differing language on a
capability-supporting handle re-invokes `loadLanguage` and `initialize` and
updates the record; without the capability the first language sticks and a
later differing request performs no engine call and raises no error. -/
theorem initLangIfNeeded_policy (item : Handle) (lang : String)
    (loadRes initRes : Except String Unit) :
    (item.lang = some lang →
      initLangIfNeeded item lang loadRes initRes = (.ok item, []))
    ∧ (item.lang ≠ some lang → item.api.hasLangInit = true →
      initLangIfNeeded item lang (.ok ()) (.ok ()) =
        (.ok { item with lang := some lang }, [.loadLanguage lang, .initEngine lang]))
    ∧ (item.api.hasLangInit = false → ∀ l0 : String, item.lang = some l0 → l0 ≠ lang →
      initLangIfNeeded item lang loadRes initRes = (.ok item, []))
    ∧ (item.api.hasLangInit = false → item.lang = none →
      initLangIfNeeded item lang loadRes initRes =
        (.ok { item with lang := some lang }, [])) := by
  obtain ⟨iid, ilang, ibusy, iapi⟩ := item
  refine ⟨fun h1 => ?_, fun h1 h2 => ?_, fun hcap l0 hl0 hne => ?_, fun hcap hnone => ?_⟩
  · simp only at h1
    subst h1
    simp [initLangIfNeeded]
  · simp only at h1 h2
    simp [initLangIfNeeded, h1, h2]
  · simp only at hcap hl0
    subst hl0
    simp [initLangIfNeeded, hcap, hne]
  · simp only at hcap hnone
    subst hnone
    simp [initLangIfNeeded, hcap]

/-- Witness for C4 on concrete handles for each branch of the policy. -/
theorem initLangIfNeeded_policy_witness :
    (initLangIfNeeded hBusyEng "eng" (.ok ()) (.ok ()) = (.ok hBusyEng, []))
    ∧ (initLangIfNeeded hBusyEng "deu" (.ok ()) (.ok ()) =
      (.ok { hBusyEng with lang := some "deu" },
        [.loadLanguage "deu", .initEngine "deu"]))
    ∧ (initLangIfNeeded hFixedEng "deu" (.ok ()) (.ok ()) = (.ok hFixedEng, [])) := by
  refine ⟨?_, ?_, ?_⟩
  · exact (initLangIfNeeded_policy hBusyEng "eng" (.ok ()) (.ok ())).1 rfl
  · exact (initLangIfNeeded_policy hBusyEng "deu" (.ok ()) (.ok ())).2.1
      (by simp [hBusyEng]) rfl
  · exact (initLangIfNeeded_policy hFixedEng "deu" (.ok ()) (.ok ())).2.2.1 rfl
      "eng" rfl (by decide)

/-- C10: when the initial synchronous scan of `acquire` finds an idle handle
and the language initialization then fails, the error propagates with the
handle still marked busy; the same failure inside the polling `check` path
clears the busy flag before rejecting. -/
theorem acquire_initfail_busy_asymmetry (pre post : List Handle) (hdl : Handle)
    (lang e : String) (initRes : Except String Unit)
    (hpre : ∀ g ∈ pre, g.busy = true) (hidle : hdl.busy = false)
    (hlang : hdl.lang ≠ some lang) (hcap : hdl.api.hasLangInit = true) :
    acquire (pre ++ hdl :: post) lang (.error e) initRes =
      .err e (pre ++ { hdl with busy := true } :: post)
    ∧ acquireCheck (pre ++ hdl :: post) lang (.error e) initRes =
      .err e (pre ++ hdl :: post) := by
  induction pre with
  | nil =>
    constructor
    · simp [acquire, hidle, initLangIfNeeded, hlang, hcap]
    · simp [acquireCheck, hidle, initLangIfNeeded, hlang, hcap]
  | cons g rest ih =>
    have hg : g.busy = true := hpre g (by simp)
    have hrest : ∀ x ∈ rest, x.busy = true := fun x hx => hpre x (by simp [hx])
    obtain ⟨ihA, ihC⟩ := ih hrest
    constructor
    · simp [acquire, hg, ihA]
    · simp [acquireCheck, hg, ihC]

/-- Witness for C10: a two-handle pool whose first handle is busy; the idle
second handle suffers an init failure on both paths. -/
theorem acquire_initfail_busy_asymmetry_witness :
    (acquire [hBusyEng, hIdleNew] "eng" (.error "load failed") (.ok ()) =
      .err "load failed" [hBusyEng, { hIdleNew with busy := true }])
    ∧ (acquireCheck [hBusyEng, hIdleNew] "eng" (.error "load failed") (.ok ()) =
      .err "load failed" [hBusyEng, hIdleNew]) := by
  have h := acquire_initfail_busy_asymmetry [hBusyEng] [] hIdleNew
    "eng" "load failed" (.ok ())
    (by intro g hg; simp at hg; subst hg; rfl) rfl (by simp [hIdleNew]) rfl
  simpa using h

/-- The clamp ignores the `|| 1` fallback: `Number(size) || 1` only rewrites
0 to 1, which the clamp to [1,4] does anyway. -/
theorem clamp14_jsNumOr1 (n : Int) : clamp14 (jsNumOr1 n) = clamp14 n := by
  by_cases h : n = 0
  · subst h
    decide
  · simp [jsNumOr1, h]

/-- The clamped size is always in [1,4]. -/
theorem clamp14_bounds (n : Int) : 1 ≤ clamp14 n ∧ clamp14 n ≤ 4 := by
  unfold clamp14
  constructor <;> omega

/-- A grow loop that has nothing to do returns the pool unchanged. -/
theorem growLoop_of_le (api : Api) (d : Nat) (pool : List Handle) (n : Nat)
    (h : d ≤ pool.length) : growLoop api d pool n = (pool, n) := by
  rw [growLoop, if_neg (by omega)]

/-- Fuel-indexed grow-loop unrolling: the loop appends fresh idle workers
until the pool reaches the desired size. -/
theorem growLoop_pool_aux (api : Api) (d k : Nat) :
    ∀ (pool : List Handle) (n : Nat), d - pool.length = k →
    ∃ fresh, (growLoop api d pool n).1 = pool ++ fresh
      ∧ (∀ hdl ∈ fresh, hdl.busy = false ∧ hdl.lang = none ∧ hdl.api = api)
      ∧ (growLoop api d pool n).1.length = max pool.length d := by
  induction k with
  | zero =>
    intro pool n hk
    rw [growLoop, if_neg (by omega)]
    exact ⟨[], by simp, by simp, by simp; omega⟩
  | succ k ih =>
    intro pool n hk
    have hlt : pool.length < d := by omega
    obtain ⟨fresh, h1, h2, h3⟩ := ih (pool ++ [createOne n api]) (n + 1)
      (by simp; omega)
    rw [growLoop, if_pos hlt]
    refine ⟨createOne n api :: fresh, ?_, ?_, ?_⟩
    · rw [h1]
      simp
    · intro hdl hm
      rcases List.mem_cons.mp hm with h | h
      · subst h
        exact ⟨rfl, rfl, rfl⟩
      · exact h2 hdl h
    · rw [h3]
      simp only [List.length_append, List.length_cons, List.length_nil]
      omega

/-- Grow-loop characterization at the natural fuel. -/
theorem growLoop_pool (api : Api) (d : Nat) (pool : List Handle) (n : Nat) :
    ∃ fresh, (growLoop api d pool n).1 = pool ++ fresh
      ∧ (∀ hdl ∈ fresh, hdl.busy = false ∧ hdl.lang = none ∧ hdl.api = api)
      ∧ (growLoop api d pool n).1.length = max pool.length d :=
  growLoop_pool_aux api d (d - pool.length) pool n rfl

/-- Fuel-indexed shrink-loop unrolling: the loop pops the suffix beyond the
desired size from the end, terminating each popped worker exactly when the
worker exposes `terminate`, in pop order. -/
theorem shrinkLoop_spec_aux (termRes : Nat → Except String Unit) (d k : Nat) :
    ∀ (pool : List Handle) (evs : List TermEvent), pool.length - d = k →
    (∀ hdl ∈ pool.drop d, hdl.api.hasTerminate = true) →
    shrinkLoop termRes d pool evs =
      (pool.take d,
        evs ++ (pool.drop d).reverse.map (fun hdl => (hdl.id, termRes hdl.id))) := by
  induction k with
  | zero =>
    intro pool evs hk hterm
    have hle : pool.length ≤ d := by omega
    rw [shrinkLoop, dif_neg (by omega)]
    rw [List.take_of_length_le hle, List.drop_eq_nil_of_le hle]
    simp
  | succ k ih =>
    intro pool evs hk hterm
    have hlt : d < pool.length := by omega
    have hne : pool ≠ [] := by
      intro hnil
      rw [hnil] at hlt
      simp at hlt
    have hdl1 : pool.dropLast.length = pool.length - 1 := List.length_dropLast pool
    have hdd : d ≤ pool.dropLast.length := by omega
    have hsplit : pool.dropLast ++ [pool.getLast hne] = pool :=
      List.dropLast_append_getLast hne
    have hdrop : pool.drop d = pool.dropLast.drop d ++ [pool.getLast hne] := by
      conv_lhs => rw [← hsplit]
      rw [List.drop_append_of_le_length hdd]
    have htake : pool.take d = pool.dropLast.take d := by
      conv_lhs => rw [← hsplit]
      rw [List.take_append_of_le_length hdd]
    have hlastterm : (pool.getLast hne).api.hasTerminate = true := by
      apply hterm
      rw [hdrop]
      simp
    rw [shrinkLoop, dif_pos hlt, List.getLast?_eq_getLast pool hne]
    dsimp only
    rw [if_pos hlastterm]
    rw [ih pool.dropLast
      (evs ++ [((pool.getLast hne).id, termRes (pool.getLast hne).id)])
      (by omega)
      (fun hdl hm => hterm hdl (by rw [hdrop]; exact List.mem_append_left _ hm))]
    rw [htake, hdrop]
    simp [List.reverse_append]

/-- Shrink-loop characterization at the natural fuel. -/
theorem shrinkLoop_spec (termRes : Nat → Except String Unit) (d : Nat)
    (pool : List Handle) (evs : List TermEvent)
    (hterm : ∀ hdl ∈ pool.drop d, hdl.api.hasTerminate = true) :
    shrinkLoop termRes d pool evs =
      (pool.take d,
        evs ++ (pool.drop d).reverse.map (fun hdl => (hdl.id, termRes hdl.id))) :=
  shrinkLoop_spec_aux termRes d (pool.length - d) pool evs rfl hterm

/-- `ensureSize` unfolded to its two loops, with the `|| 1` fallback folded
into the clamp. -/
theorem ensureSize_eq (st : PoolState) (api : Api) (termRes : Nat → Except String Unit)
    (size : Int) :
    ensureSize st api termRes size =
      (⟨(shrinkLoop termRes (clamp14 size)
            (growLoop api (clamp14 size) st.pool st.nextId).1 []).1,
        clamp14 size,
        (growLoop api (clamp14 size) st.pool st.nextId).2⟩,
       (shrinkLoop termRes (clamp14 size)
            (growLoop api (clamp14 size) st.pool st.nextId).1 []).2) := by
  unfold ensureSize
  rw [clamp14_jsNumOr1]

/-- C3: after `ensureSize(n)` the pool size is exactly clamp(n,1,4); growing
appends fresh idle workers and terminates nothing; shrinking truncates the
pool to the clamped size and terminates each removed handle exactly once,
from the end; resizing to the current size leaves the pool untouched; and
terminate outcomes never affect the resulting pool state (termination errors
are swallowed). -/
theorem ensureSize_spec (st : PoolState) (api : Api)
    (termRes : Nat → Except String Unit) (size : Int)
    (hterm : ∀ hdl ∈ st.pool, hdl.api.hasTerminate = true)
    (hids : (st.pool.map Handle.id).Nodup) :
    (1 ≤ clamp14 size ∧ clamp14 size ≤ 4)
    ∧ (ensureSize st api termRes size).1.pool.length = clamp14 size
    ∧ (st.pool.length ≤ clamp14 size →
        (∃ fresh, (ensureSize st api termRes size).1.pool = st.pool ++ fresh
          ∧ ∀ hdl ∈ fresh, hdl.busy = false ∧ hdl.lang = none ∧ hdl.api = api)
        ∧ (ensureSize st api termRes size).2 = [])
    ∧ (clamp14 size ≤ st.pool.length →
        (ensureSize st api termRes size).1.pool = st.pool.take (clamp14 size)
        ∧ (ensureSize st api termRes size).2 =
            (st.pool.drop (clamp14 size)).reverse.map
              (fun hdl => (hdl.id, termRes hdl.id))
        ∧ ∀ hdl ∈ st.pool.drop (clamp14 size),
            ((ensureSize st api termRes size).2.map Prod.fst).count hdl.id = 1)
    ∧ (st.pool.length = clamp14 size →
        (ensureSize st api termRes size).1.pool = st.pool
        ∧ (ensureSize st api termRes size).2 = [])
    ∧ (∀ termRes2 : Nat → Except String Unit,
        (ensureSize st api termRes2 size).1 = (ensureSize st api termRes size).1) := by
  obtain ⟨hb1, hb2⟩ := clamp14_bounds size
  obtain ⟨fresh, hg1, hg2, hg3⟩ := growLoop_pool api (clamp14 size) st.pool st.nextId
  have htermdrop : ∀ hdl ∈ st.pool.drop (clamp14 size), hdl.api.hasTerminate = true :=
    fun hdl hm => hterm hdl (List.mem_of_mem_drop hm)
  have hA : ∀ tr : Nat → Except String Unit, st.pool.length ≤ clamp14 size →
      ensureSize st api tr size =
        (⟨(growLoop api (clamp14 size) st.pool st.nextId).1, clamp14 size,
          (growLoop api (clamp14 size) st.pool st.nextId).2⟩, []) := by
    intro tr hle
    have hglen : (growLoop api (clamp14 size) st.pool st.nextId).1.length =
        clamp14 size := by
      rw [hg3]
      omega
    rw [ensureSize_eq]
    rw [shrinkLoop_spec tr (clamp14 size) _ []
      (by rw [List.drop_eq_nil_of_le (le_of_eq hglen)]; intro hdl hm; simp at hm)]
    rw [List.take_of_length_le (le_of_eq hglen),
      List.drop_eq_nil_of_le (le_of_eq hglen)]
    simp
  have hB : ∀ tr : Nat → Except String Unit, clamp14 size ≤ st.pool.length →
      ensureSize st api tr size =
        (⟨st.pool.take (clamp14 size), clamp14 size, st.nextId⟩,
         (st.pool.drop (clamp14 size)).reverse.map (fun hdl => (hdl.id, tr hdl.id))) := by
    intro tr hge
    rw [ensureSize_eq, growLoop_of_le api (clamp14 size) st.pool st.nextId hge]
    dsimp only
    rw [shrinkLoop_spec tr (clamp14 size) st.pool [] htermdrop]
    simp
  refine ⟨⟨hb1, hb2⟩, ?_, ?_, ?_, ?_, ?_⟩
  · rcases Nat.le_total st.pool.length (clamp14 size) with hle | hge
    · rw [hA termRes hle]
      dsimp only
      rw [hg3]
      omega
    · rw [hB termRes hge]
      dsimp only
      rw [List.length_take]
      omega
  · intro hle
    rw [hA termRes hle]
    exact ⟨⟨fresh, hg1, hg2⟩, rfl⟩
  · intro hge
    rw [hB termRes hge]
    refine ⟨rfl, rfl, ?_⟩
    intro hdl hm
    have hmap : (((st.pool.drop (clamp14 size)).reverse.map
        (fun h => (h.id, termRes h.id))).map Prod.fst) =
        ((st.pool.drop (clamp14 size)).map Handle.id).reverse := by
      rw [List.map_map, ← List.map_reverse]
      rfl
    dsimp only
    rw [hmap, List.count_reverse]
    have hnd : ((st.pool.drop (clamp14 size)).map Handle.id).Nodup := by
      rw [List.map_drop]
      exact List.Nodup.sublist (List.drop_sublist _ _) hids
    exact List.count_eq_one_of_mem hnd (List.mem_map_of_mem _ hm)
  · intro heq
    have hge : clamp14 size ≤ st.pool.length := le_of_eq heq.symm
    rw [hB termRes hge]
    constructor
    · dsimp only
      rw [← heq, List.take_length]
    · dsimp only
      rw [← heq, List.drop_length]
      rfl
  · intro termRes2
    rcases Nat.le_total st.pool.length (clamp14 size) with hle | hge
    · rw [hA termRes hle, hA termRes2 hle]
    · rw [hB termRes hge, hB termRes2 hge]

/-- Witness for C3: a three-handle pool shrunk to size 1 with every
terminate succeeding. -/
theorem ensureSize_spec_witness :
    (1 ≤ clamp14 1 ∧ clamp14 1 ≤ 4)
    ∧ (ensureSize ⟨[hIdleEng, hIdleNew, { hIdleNew with id := 2 }], 3, 3⟩
        fullApi (fun _ => .ok ()) 1).1.pool.length = clamp14 1 := by
  have h := ensureSize_spec ⟨[hIdleEng, hIdleNew, { hIdleNew with id := 2 }], 3, 3⟩
    fullApi (fun _ => .ok ()) 1 (by decide) (by decide)
  exact ⟨h.1, h.2.1⟩

/-- C1 (code divergence): a request that acquires the pool's only handle and
whose recognition then fails — by an engine error or by timeout expiry —
propagates the failure while the handle's busy flag stays set: the handler's
catch block performs no release, so the handle never returns to idle. -/
theorem request_failure_leaves_handle_busy :
    (onInput { okEnv with workerRecogRes := .error "recognize failed" }
        { pool := [hIdleEng], desiredSize := 1, nextId := 1 } =
      .err "recognize failed"
        { pool := [{ hIdleEng with busy := true }], desiredSize := 1, nextId := 1 }
        [.ensureSize 1, .acquire "eng", .setParameters, .recognize .workerRec none])
    ∧ (onInput { okEnv with recogElapsed := 40000 }
        { pool := [hIdleEng], desiredSize := 1, nextId := 1 } =
      .err ("OCR timeout after " ++ toString (30000 : Int) ++ "ms")
        { pool := [{ hIdleEng with busy := true }], desiredSize := 1, nextId := 1 }
        [.ensureSize 1, .acquire "eng", .setParameters, .recognize .workerRec none]) := by
  have hsize : ∀ tr : Nat → Except String Unit,
      ensureSize ⟨[hIdleEng], 1, 1⟩ fullApi tr 1 = (⟨[hIdleEng], 1, 1⟩, []) := by
    intro tr
    rw [ensureSize_eq, growLoop_of_le fullApi (clamp14 1) [hIdleEng] 1 (by decide),
      shrinkLoop_spec tr (clamp14 1) [hIdleEng] [] (by decide)]
    have hc : clamp14 1 = 1 := by decide
    rw [hc]
    simp
  constructor
  · simp only [onInput, runSession, okEnv, emptyIncoming, mergeConfig, defaults,
      Option.getD_none, effLang]
    rw [hsize]
    decide
  · simp only [onInput, runSession, okEnv, emptyIncoming, mergeConfig, defaults,
      Option.getD_none, effLang]
    rw [hsize]
    decide

/-- C2: under cooperative interleaving of any number of concurrent `acquire`
callers against any pool, every reachable state keeps mutual exclusion: a
handle returned to one caller is marked busy, and no other caller holds it
at the same time. -/
theorem acquire_mutual_exclusion (nH nC : Nat) (s : Sys)
    (hreach : Reach (initSys nH nC) s) (c d i : Nat) (hne : c ≠ d)
    (hc : s.callers[c]? = some (.holding i)) :
    s.busy[i]? = some true ∧ s.callers[d]? ≠ some (.holding i) := by
  have hinv := inv_reach (inv_init nH nC) hreach
  constructor
  · exact hinv.heldBusy c _ i hc rfl
  · intro hd
    exact hinv.excl c d _ _ i hne hc hd rfl rfl

/-- Witness for C2: one handle, two callers; after the first caller's scan
marks the handle busy and its initialization completes, the first caller
holds handle 0 and the second caller does not. -/
theorem acquire_mutual_exclusion_witness :
    (⟨[true], [CState.holding 0, CState.scanning]⟩ : Sys).busy[0]? = some true
    ∧ (⟨[true], [CState.holding 0, CState.scanning]⟩ : Sys).callers[1]? ≠
        some (CState.holding 0) := by
  have h1 : Step (initSys 1 2) ⟨[true], [CState.initing 0, CState.scanning]⟩ :=
    Step.scanFound (initSys 1 2) 0 0 rfl rfl
  have h2 : Step ⟨[true], [CState.initing 0, CState.scanning]⟩
      ⟨[true], [CState.holding 0, CState.scanning]⟩ :=
    Step.initOk ⟨[true], [CState.initing 0, CState.scanning]⟩ 0 0 rfl
  have hreach : Reach (initSys 1 2) ⟨[true], [CState.holding 0, CState.scanning]⟩ :=
    Relation.ReflTransGen.tail (Relation.ReflTransGen.tail Relation.ReflTransGen.refl h1) h2
  exact acquire_mutual_exclusion 1 2 _ hreach 0 1 0 (by decide) rfl

end Zocr
